/-
  Verification of the PWHL-Scraper ingestion pipeline.

  Shallow embedding of the repository's upsert scrapers
  (`pwhl_scraper/scrapers/basic_info.py`, `players.py`, `play_by_play.py`)
  and of the database helpers (`pwhl_scraper/database/db_manager.py`),
  with theorems settling the behavioural claims about them.

  Tables are modelled as lists of row structures; SQL `UPDATE ... WHERE id = ?`
  becomes a map over the rows, `INSERT` an append, and the per-record
  existence check a `List.find?`.  Python dict `.get` with a default is
  modelled by `Option` fields.
-/
import Mathlib

set_option autoImplicit false

namespace PWHL

/-! ## Data model for `basic_info.py` -/

/-- A row of the `leagues` table: columns (id, name, short_name, code, logo). -/
structure LeagueRow where
  id : Int
  name : String
  short_name : String
  code : String
  logo : String
deriving DecidableEq, Repr

/-- One league dictionary from the API payload.  A `none` field models a
missing key; the `id` field carries the already-`int`-coerced value. -/
structure LeagueIn where
  id : Option Int
  name : Option String
  short_name : Option String
  code : Option String
  logo_image : Option String
deriving DecidableEq, Repr

/-- Coercion `int(league.get("id", 0))`: a missing key coerces to `0`. -/
def LeagueIn.leagueId (l : LeagueIn) : Int := l.id.getD 0

/-- Loop body of `update_leagues` for one record (existence check, then
UPDATE or INSERT); the zero-id skip lives in the surrounding loop. -/
def updateLeaguesStep (t : List LeagueRow) (league : LeagueIn) : List LeagueRow :=
  let league_id := league.leagueId
  let name := league.name.getD ""
  let short_name := league.short_name.getD ""
  let code := league.code.getD ""
  let logo := league.logo_image.getD ""
  if (t.find? (fun row => row.id == league_id)).isSome then
    t.map (fun row =>
      if row.id == league_id then
        { id := row.id, name := name, short_name := short_name, code := code, logo := logo }
      else row)
  else
    t ++ [{ id := league_id, name := name, short_name := short_name,
            code := code, logo := logo }]

/-- The shared loop skeleton of the `basic_info.py` updaters: skip records
whose coerced id is `0`, otherwise run the per-record upsert step and count
the record.  Returns the final table and `updated_count`. -/
def runUpsert {α ρ : Type} (key : α → Int) (step : List ρ → α → List ρ) :
    List ρ → List α → List ρ × Nat
  | t, [] => (t, 0)
  | t, a :: rest =>
    if key a = 0 then runUpsert key step t rest
    else
      let out := runUpsert key step (step t a) rest
      (out.1, out.2 + 1)

/-- Function `update_leagues` from `basic_info.py`. -/
def update_leagues (t : List LeagueRow) (data : List LeagueIn) : List LeagueRow × Nat :=
  runUpsert LeagueIn.leagueId updateLeaguesStep t data

/-- A row of the `conferences` table. -/
structure ConferenceRow where
  id : Int
  name : String
deriving DecidableEq, Repr

/-- One conference dictionary from the API payload. -/
structure ConferenceIn where
  conference_id : Option Int
  conference_name : Option String
deriving DecidableEq, Repr

def ConferenceIn.confId (c : ConferenceIn) : Int := c.conference_id.getD 0

/-- Loop body of `update_conferences` for one record. -/
def updateConferencesStep (t : List ConferenceRow) (conference : ConferenceIn) :
    List ConferenceRow :=
  let conf_id := conference.confId
  let name := conference.conference_name.getD ""
  if (t.find? (fun row => row.id == conf_id)).isSome then
    t.map (fun row => if row.id == conf_id then { id := row.id, name := name } else row)
  else
    t ++ [{ id := conf_id, name := name }]

/-- Function `update_conferences` from `basic_info.py`. -/
def update_conferences (t : List ConferenceRow) (data : List ConferenceIn) :
    List ConferenceRow × Nat :=
  runUpsert ConferenceIn.confId updateConferencesStep t data

/-- A row of the `divisions` table (the columns this scraper touches). -/
structure DivisionRow where
  id : Int
  name : String
deriving DecidableEq, Repr

/-- One division dictionary from the API payload. -/
structure DivisionIn where
  id : Option Int
  name : Option String
deriving DecidableEq, Repr

def DivisionIn.divId (d : DivisionIn) : Int := d.id.getD 0

/-- Loop body of `update_divisions` for one record. -/
def updateDivisionsStep (t : List DivisionRow) (division : DivisionIn) : List DivisionRow :=
  let div_id := division.divId
  let name := division.name.getD ""
  if (t.find? (fun row => row.id == div_id)).isSome then
    t.map (fun row => if row.id == div_id then { id := row.id, name := name } else row)
  else
    t ++ [{ id := div_id, name := name }]

/-- Function `update_divisions` from `basic_info.py`. -/
def update_divisions (t : List DivisionRow) (data : List DivisionIn) :
    List DivisionRow × Nat :=
  runUpsert DivisionIn.divId updateDivisionsStep t data

/-! ## Seasons -/

/-- The JSON value found under a season's `current` key: either a string
(`"1"`/`"0"`) or a boolean, as handled by `update_seasons`. -/
inductive CurVal where
  | str (v : String)
  | bool (v : Bool)
deriving DecidableEq, Repr

/-- A row of the `seasons` table: columns
(id, sort, name, type, current, hide_in_standings, start_date). -/
structure SeasonRow where
  id : Int
  sort : Int
  name : String
  type : String
  current : Int
  hide_in_standings : Int
  start_date : String
deriving DecidableEq, Repr

/-- One season dictionary from the API payload.  `default_sort` is `none`
when the key is missing or its value fails `int()` coercion (both yield 0);
`hide_in_standings` is the truthiness of the stored value. -/
structure SeasonIn where
  id : Option Int
  name : Option String
  current : Option CurVal
  default_sort : Option Int
  hide_in_standings : Bool
deriving DecidableEq, Repr

def SeasonIn.seasonId (s : SeasonIn) : Int := s.id.getD 0

/-- Check `season.get("current", "0") == "1" or season.get("current") is True`. -/
def SeasonIn.isCurrentFlag (s : SeasonIn) : Bool :=
  match s.current with
  | none => false
  | some (.str v) => v == "1"
  | some (.bool b) => b

/-- Python `max` over a nonempty list (0 for the empty list, which the
source never reaches). -/
def pyListMax : List Int → Int
  | [] => 0
  | x :: xs => xs.foldl max x

/-- The `current_season_id` computed before the `update_seasons` loop: the
first payload entry flagged current, else (for a nonempty payload) the
highest coerced id. -/
def currentSeasonId (data : List SeasonIn) : Option Int :=
  match data.find? SeasonIn.isCurrentFlag with
  | some season => some season.seasonId
  | none => if data.isEmpty then none else some (pyListMax (data.map SeasonIn.seasonId))

/-- Whether `needle` starts `hay` (character lists). -/
def startsWithChars : List Char → List Char → Bool
  | _, [] => true
  | [], _ :: _ => false
  | c :: cs, d :: ds => c == d && startsWithChars cs ds

/-- Substring containment on character lists, for Python's `in` operator. -/
def hasSubChars (needle : List Char) : List Char → Bool
  | [] => startsWithChars [] needle
  | c :: cs => startsWithChars (c :: cs) needle || hasSubChars needle cs

/-- Python `needle in hay` for strings. -/
def strContainsPy (hay needle : String) : Bool :=
  hasSubChars needle.toList hay.toList

/-- Loop body of `update_seasons` for one record, given the precomputed
`current_season_id`. -/
def updateSeasonsStep (current_season_id : Option Int) (t : List SeasonRow)
    (season : SeasonIn) : List SeasonRow :=
  let season_id := season.seasonId
  let name := season.name.getD ""
  let season_type :=
    if strContainsPy name "Preseason" then "Preseason"
    else if strContainsPy name "Playoffs" then "Playoffs"
    else "Regular Season"
  let sort := season.default_sort.getD 0
  let current : Int := if some season_id = current_season_id then 1 else 0
  let hide_in_standings : Int := if season.hide_in_standings then 1 else 0
  if (t.find? (fun row => row.id == season_id)).isSome then
    t.map (fun row =>
      if row.id == season_id then
        { id := row.id, sort := sort, name := name, type := season_type,
          current := current, hide_in_standings := hide_in_standings,
          start_date := row.start_date }
      else row)
  else
    t ++ [{ id := season_id, sort := sort, name := name, type := season_type,
            current := current, hide_in_standings := hide_in_standings,
            start_date := "" }]

/-- Function `update_seasons` from `basic_info.py`. -/
def update_seasons (t : List SeasonRow) (data : List SeasonIn) : List SeasonRow × Nat :=
  runUpsert SeasonIn.seasonId (updateSeasonsStep (currentSeasonId data)) t data

/-- The coerced ids of the payload entries that `update_seasons` actually
processes (the nonzero ones). -/
def processedSeasonIds (data : List SeasonIn) : List Int :=
  (data.map SeasonIn.seasonId).filter (fun i => !(i == 0))

/-- Prior state of the C8 counterexample: a stored season (id 99) still
flagged current, absent from the new payload. -/
def staleCurrentSeasons : List SeasonRow :=
  [{ id := 99, sort := 0, name := "2023-24 Regular Season", type := "Regular Season",
     current := 1, hide_in_standings := 0, start_date := "" }]

/-- Payload of the C8 counterexample: a single new season flagged current. -/
def newSeasonPayload : List SeasonIn :=
  [{ id := some 1, name := some "2025 Regular Season", current := some (.str "1"),
     default_sort := some 1, hide_in_standings := false }]

/-! ## Data model for `play_by_play.py` -/

/-- A Python runtime exception, as far as the dispatcher can observe one. -/
inductive PyErr where
  | nameError (n : String)
  | exc (msg : String)
deriving DecidableEq, Repr

/-- One play-by-play event dictionary; only the `event` dispatch tag is
inspected by the dispatcher itself (`none` models a missing key). -/
structure PbpEvent where
  event : Option String
deriving DecidableEq, Repr

/-- The eight recognized event tags of `process_game_play_by_play`. -/
def knownEventTypes : List String :=
  ["goalie_change", "faceoff", "hit", "shot", "blocked_shot", "goal", "penalty", "shootout"]

/-- Module-level names of `play_by_play.py` (imports, the logger and the
functions defined in the module), resolvable from any scope in the file. -/
def moduleScope : List String :=
  ["sqlite3", "logging", "Dict", "Any", "List", "Optional", "Tuple",
   "PWHLApiClient", "create_connection", "execute_query", "fetch_one", "fetch_all",
   "logger", "process_game_play_by_play", "get_game_teams",
   "process_goalie_change", "process_faceoff", "process_hit", "process_shot",
   "process_blocked_shot", "process_goal", "process_goal_plus_players",
   "process_goal_minus_players", "process_penalty", "process_shootout",
   "get_games_without_play_by_play", "get_season_id_for_game", "update_play_by_play"]

/-- The names bound in the local scope of `process_game_play_by_play` when
the event loop runs: its parameters plus its preceding assignments.  The
game-team lookup binds `home_team` and `visiting_team` — there is no
binding for `home_team_id` or `away_team_id`. -/
def dispatcherScope : List String :=
  moduleScope ++
    ["conn", "game_id", "season_id", "client", "pbp_data",
     "home_team", "visiting_team", "events", "total_processed",
     "event", "event_type"]

/-- Python name resolution: a name not bound in the scope raises
`NameError` when evaluated. -/
def resolveName (scope : List String) (n : String) : Except PyErr Unit :=
  if scope.contains n then .ok () else .error (.nameError n)

/-- One handler call of the dispatcher: Python first resolves the callee
name, then evaluates the arguments left to right
(`conn, event, game_id, season_id, home_team_id, away_team_id`), and only
then enters the handler body (modelled by the abstract `handler`). -/
def callHandler (scope : List String) (handler : PbpEvent → Except PyErr Bool)
    (fname : String) (ev : PbpEvent) : Except PyErr Bool := do
  let _ ← resolveName scope fname
  let _ ← resolveName scope "conn"
  let _ ← resolveName scope "event"
  let _ ← resolveName scope "game_id"
  let _ ← resolveName scope "season_id"
  let _ ← resolveName scope "home_team_id"
  let _ ← resolveName scope "away_team_id"
  handler ev

/-- The body of the per-event `try` block: dispatch on the `event` tag to
one of the eight handlers; an unrecognized (or missing) tag matches no
branch and contributes nothing. -/
def processEventBody (handlers : String → PbpEvent → Except PyErr Bool)
    (scope : List String) (ev : PbpEvent) : Except PyErr Nat :=
  match ev.event with
  | Option.none => Except.ok 0
  | some tag =>
    if tag ∈ knownEventTypes then do
      let ok ← callHandler scope (handlers tag) ("process_" ++ tag) ev
      pure (if ok then 1 else 0)
    else Except.ok 0

/-- The per-event `try`/`except`: an exception is logged and the event
contributes nothing; otherwise the body's count stands. -/
def processEventCaught (handlers : String → PbpEvent → Except PyErr Bool)
    (scope : List String) (ev : PbpEvent) : Nat :=
  match processEventBody handlers scope ev with
  | .ok n => n
  | .error _ => 0

/-- The event loop of `process_game_play_by_play`, accumulating
`total_processed`. -/
def processEvents (handlers : String → PbpEvent → Except PyErr Bool)
    (scope : List String) (events : List PbpEvent) : Nat :=
  events.foldl (fun acc ev => acc + processEventCaught handlers scope ev) 0

/-- The event loop of `process_game_play_by_play` as it actually runs:
in the scope the dispatcher really has.  The handlers stay abstract
because (as proved below) they are never reached. -/
def process_game_play_by_play (handlers : String → PbpEvent → Except PyErr Bool)
    (events : List PbpEvent) : Nat :=
  processEvents handlers dispatcherScope events

/-- A row of the `games` table (the columns this query touches). -/
structure GameRow where
  id : Int
  season_id : Int
  status : String
deriving DecidableEq, Repr

/-- The database state seen by `get_games_without_play_by_play`: the games
table and, for each of the eight event tables, the `game_id` column of its
rows. -/
structure PbpDB where
  games : List GameRow
  pbp_faceoffs : List Int
  pbp_shots : List Int
  pbp_goals : List Int
  pbp_hits : List Int
  pbp_penalties : List Int
  pbp_blocked_shots : List Int
  pbp_goalie_changes : List Int
  pbp_shootouts : List Int
deriving DecidableEq, Repr

/-- A game id appears in the UNION of the eight event tables. -/
def hasPlayByPlay (db : PbpDB) (gid : Int) : Bool :=
  db.pbp_faceoffs.contains gid || db.pbp_shots.contains gid ||
  db.pbp_goals.contains gid || db.pbp_hits.contains gid ||
  db.pbp_penalties.contains gid || db.pbp_blocked_shots.contains gid ||
  db.pbp_goalie_changes.contains gid || db.pbp_shootouts.contains gid

/-- Insertion step of the `ORDER BY g.id` sort. -/
def insertByGameId (g : GameRow) : List GameRow → List GameRow
  | [] => [g]
  | h :: t => if g.id ≤ h.id then g :: h :: t else h :: insertByGameId g t

/-- Sorting `ORDER BY g.id` (insertion sort, stable and total). -/
def sortByGameId : List GameRow → List GameRow
  | [] => []
  | h :: t => insertByGameId h (sortByGameId t)

/-- Function `get_games_without_play_by_play` from `play_by_play.py`: the games with
no row in the UNION of the eight event tables AND status `'Final'`,
ordered by game id, projected to `(id, season_id)`. -/
def get_games_without_play_by_play (db : PbpDB) : List (Int × Int) :=
  (sortByGameId (db.games.filter
    (fun g => !hasPlayByPlay db g.id && g.status == "Final"))).map
      (fun g => (g.id, g.season_id))

/-- The database of the C2 counterexample: game 1 is `Final` with one
faceoff row, game 2 is `Scheduled` with no event rows anywhere. -/
def nonFinalGameDb : PbpDB :=
  { games := [{ id := 1, season_id := 2024, status := "Final" },
              { id := 2, season_id := 2024, status := "Scheduled" }],
    pbp_faceoffs := [1], pbp_shots := [], pbp_goals := [], pbp_hits := [],
    pbp_penalties := [], pbp_blocked_shots := [], pbp_goalie_changes := [],
    pbp_shootouts := [] }

/-! ## Data model for `players.py` -/

/-- A Python value stored in a player field: `None`, an int or a string. -/
inductive PyVal where
  | vNone
  | vInt (i : Int)
  | vStr (s : String)
deriving DecidableEq, Repr

/-- Python truthiness of such a value. -/
def PyVal.truthy : PyVal → Bool
  | .vNone => false
  | .vInt i => i != 0
  | .vStr s => s != ""

/-- Lookup `d.get(c)` on a Python dict modelled as an association list: a missing
key yields `None`. -/
def pyDictGet (d : List (String × PyVal)) (c : String) : PyVal :=
  (((d.find? (fun p => p.1 == c)).map Prod.snd)).getD .vNone

/-- Membership `c in d` on a Python dict. -/
def pyDictHas (d : List (String × PyVal)) (c : String) : Bool :=
  d.any (fun p => p.1 == c)

/-- The `players` table: its column names (from `PRAGMA table_info`) and
its rows, each a dict from column name to stored value. -/
structure PlayersTable where
  cols : List String
  rows : List (List (String × PyVal))
deriving DecidableEq, Repr

/-- The preserve-list of `update_player`. -/
def preserve_fields : List String :=
  ["hometown", "hometown_div", "nationality", "weight_kg", "height_cm"]

/-- The changed-field diff of `update_player`: for each table column either
present in the extracted fields, keep it when it differs from the stored
value — except that a preserve-listed column is kept only when the API
value is also truthy. -/
def computeChanges (cols : List String) (fields existing : List (String × PyVal)) :
    List (String × PyVal) :=
  cols.filterMap (fun column =>
    if pyDictHas fields column then
      if preserve_fields.contains column then
        if (pyDictGet fields column).truthy
            && !(pyDictGet fields column == pyDictGet existing column) then
          some (column, pyDictGet fields column)
        else none
      else
        if !(pyDictGet fields column == pyDictGet existing column) then
          some (column, pyDictGet fields column)
        else none
    else none)

/-- Apply an `UPDATE players SET c₁ = ?, ... WHERE id = ?` to one row:
every column named in `changes` takes its new value. -/
def applyChanges (row changes : List (String × PyVal)) : List (String × PyVal) :=
  row.map (fun p => if pyDictHas changes p.1 then (p.1, pyDictGet changes p.1) else p)

/-- Function `update_player` from `players.py`, from the extracted field dict on:
insert when the id is unseen, else update only the changed columns, else do
nothing; returns whether the player was added or updated. -/
def update_player (db : PlayersTable) (fields : List (String × PyVal)) :
    PlayersTable × Bool :=
  let player_id := pyDictGet fields "id"
  match db.rows.find? (fun r => pyDictGet r "id" == player_id) with
  | Option.none =>
    ({ db with rows := db.rows ++ [fields] }, true)
  | some existing_player =>
    let changes := computeChanges db.cols fields existing_player
    if changes.isEmpty then (db, false)
    else
      ({ db with rows := db.rows.map (fun r =>
          if pyDictGet r "id" == player_id then applyChanges r changes else r) }, true)

/-! ## Model of `db_manager.py` -/

/-- A SQLite connection: the pending (in-transaction) view of the database
and the last committed one. -/
structure DbConn (σ : Type) where
  pending : σ
  committed : σ
deriving DecidableEq, Repr

/-- Effect of `conn.commit()`. -/
def DbConn.commit {σ : Type} (c : DbConn σ) : DbConn σ := { c with committed := c.pending }

/-- Effect of `conn.rollback()`. -/
def DbConn.rollback {σ : Type} (c : DbConn σ) : DbConn σ := { c with pending := c.committed }

/-- Exception type `sqlite3.Error`. -/
inductive SqliteError where
  | sqlError (msg : String)
deriving DecidableEq, Repr

/-- Behaviour of `cursor.execute` on a single statement: the connection
state it leaves behind plus either an affected-row count or a raised
`sqlite3.Error`. -/
def Driver (σ : Type) : Type :=
  DbConn σ → String → Option (List PyVal) → DbConn σ × Except SqliteError Int

/-- Behaviour of `cursor.executemany`. -/
def DriverMany (σ : Type) : Type :=
  DbConn σ → String → List (List PyVal) → DbConn σ × Except SqliteError Int

/-- The `if params:` dispatch of `execute_query`: a missing or empty
(falsy) parameter tuple makes the one-argument `cursor.execute` call. -/
def execParamArg (params : Option (List PyVal)) : Option (List PyVal) :=
  match params with
  | some ps => if ps.isEmpty then none else some ps
  | none => none

/-- Function `execute_query` from `db_manager.py`: run the statement, commit and
return the row count; on `sqlite3.Error` log, roll back and re-raise. -/
def execute_query {σ : Type} (driver : Driver σ) (conn : DbConn σ) (query : String)
    (params : Option (List PyVal)) : DbConn σ × Except SqliteError Int :=
  match driver conn query (execParamArg params) with
  | (c, .ok n) => (c.commit, .ok n)
  | (c, .error e) => (c.rollback, .error e)

/-- Function `execute_many` from `db_manager.py`. -/
def execute_many {σ : Type} (driver : DriverMany σ) (conn : DbConn σ) (query : String)
    (params_list : List (List PyVal)) : DbConn σ × Except SqliteError Int :=
  match driver conn query params_list with
  | (c, .ok n) => (c.commit, .ok n)
  | (c, .error e) => (c.rollback, .error e)

/-! ## Generic facts about the upsert loop -/

section UpsertLemmas

variable {α ρ : Type} (key : α → Int) (step : List ρ → α → List ρ) (rid : ρ → Int)

theorem runUpsert_table_filter (d : List α) :
    ∀ t, (runUpsert key step t d).1 =
      (runUpsert key step t (d.filter (fun a => !(key a == 0)))).1 := by
  induction d with
  | nil => intro t; rfl
  | cons a rest ih =>
    intro t
    by_cases h : key a = 0
    · simp only [List.filter_cons, h]
      simpa [runUpsert, h] using ih t
    · simp only [List.filter_cons, h]
      simpa [runUpsert, h] using ih (step t a)

theorem runUpsert_count (d : List α) :
    ∀ t, (runUpsert key step t d).2 = (d.filter (fun a => !(key a == 0))).length := by
  induction d with
  | nil => intro t; rfl
  | cons a rest ih =>
    intro t
    by_cases h : key a = 0
    · simpa [runUpsert, h, List.filter_cons] using ih t
    · simpa [runUpsert, h, List.filter_cons] using ih (step t a)

variable
  (Hupd : ∀ t a, key a ∈ t.map rid → (step t a).map rid = t.map rid)
  (Hins : ∀ t a, key a ∉ t.map rid → (step t a).map rid = t.map rid ++ [key a])

include Hupd Hins in
theorem runUpsert_ids_mono (d : List α) :
    ∀ t i, i ∈ t.map rid → i ∈ ((runUpsert key step t d).1).map rid := by
  induction d with
  | nil => intro t i h; simpa [runUpsert] using h
  | cons a rest ih =>
    intro t i h
    by_cases h0 : key a = 0
    · simp only [runUpsert, if_pos h0]; exact ih t i h
    · simp only [runUpsert, if_neg h0]
      apply ih
      by_cases hm : key a ∈ t.map rid
      · rw [Hupd t a hm]; exact h
      · rw [Hins t a hm]; exact List.mem_append_left _ h

include Hupd Hins in
theorem runUpsert_key_mem (d : List α) :
    ∀ t a, a ∈ d → key a ≠ 0 → key a ∈ ((runUpsert key step t d).1).map rid := by
  induction d with
  | nil => intro t a h; cases h
  | cons b rest ih =>
    intro t a hmem hk
    rcases List.mem_cons.mp hmem with rfl | hmem'
    · simp only [runUpsert, if_neg hk]
      apply runUpsert_ids_mono key step rid Hupd Hins
      by_cases hm : key a ∈ t.map rid
      · rw [Hupd t a hm]; exact hm
      · rw [Hins t a hm]; exact List.mem_append_right _ (List.mem_singleton.mpr rfl)
    · by_cases h0 : key b = 0
      · simp only [runUpsert, if_pos h0]; exact ih t a hmem' hk
      · simp only [runUpsert, if_neg h0]; exact ih _ a hmem' hk

include Hupd in
theorem runUpsert_ids_eq (d : List α) :
    ∀ t, (∀ a ∈ d, key a ≠ 0 → key a ∈ t.map rid) →
      ((runUpsert key step t d).1).map rid = t.map rid := by
  induction d with
  | nil => intro t _; rfl
  | cons a rest ih =>
    intro t hall
    by_cases h0 : key a = 0
    · simp only [runUpsert, if_pos h0]
      exact ih t (fun b hb => hall b (List.mem_cons_of_mem a hb))
    · simp only [runUpsert, if_neg h0]
      have hm := hall a (List.mem_cons_self a rest) h0
      have hids := Hupd t a hm
      rw [ih (step t a) ?_, hids]
      intro b hb hk
      rw [hids]
      exact hall b (List.mem_cons_of_mem a hb) hk

include Hupd Hins in
theorem runUpsert_nodup (d : List α) :
    ∀ t, (t.map rid).Nodup → (((runUpsert key step t d).1).map rid).Nodup := by
  induction d with
  | nil => intro t h; exact h
  | cons a rest ih =>
    intro t h
    by_cases h0 : key a = 0
    · simp only [runUpsert, if_pos h0]; exact ih t h
    · simp only [runUpsert, if_neg h0]
      apply ih
      by_cases hm : key a ∈ t.map rid
      · rw [Hupd t a hm]; exact h
      · rw [Hins t a hm]; simp [List.nodup_append, h, hm]

include Hupd Hins in
theorem runUpsert_idem_ids (t : List ρ) (d : List α) :
    ((runUpsert key step (runUpsert key step t d).1 d).1).map rid
      = ((runUpsert key step t d).1).map rid :=
  runUpsert_ids_eq key step rid Hupd d _
    (fun a ha hk => runUpsert_key_mem key step rid Hupd Hins d t a ha hk)

end UpsertLemmas

/-! ## Per-step id lemmas -/

theorem updateLeaguesStep_ids_mem (t : List LeagueRow) (l : LeagueIn)
    (hm : l.leagueId ∈ t.map LeagueRow.id) :
    (updateLeaguesStep t l).map LeagueRow.id = t.map LeagueRow.id := by
  have hfind : (t.find? (fun row => row.id == l.leagueId)).isSome = true := by
    rw [List.find?_isSome]
    rcases List.mem_map.mp hm with ⟨row, hrow, hid⟩
    exact ⟨row, hrow, by simp [hid]⟩
  simp only [updateLeaguesStep, hfind, if_true, List.map_map]
  apply List.map_congr_left
  intro row _
  by_cases h : row.id = l.leagueId <;> simp [h, Function.comp]

theorem updateLeaguesStep_ids_notmem (t : List LeagueRow) (l : LeagueIn)
    (hm : l.leagueId ∉ t.map LeagueRow.id) :
    (updateLeaguesStep t l).map LeagueRow.id = t.map LeagueRow.id ++ [l.leagueId] := by
  have hfind : t.find? (fun row => row.id == l.leagueId) = none := by
    rw [List.find?_eq_none]
    intro row hrow
    simp only [beq_iff_eq]
    exact fun h => hm (List.mem_map.mpr ⟨row, hrow, h⟩)
  simp [updateLeaguesStep, hfind]

theorem updateConferencesStep_ids_mem (t : List ConferenceRow) (c : ConferenceIn)
    (hm : c.confId ∈ t.map ConferenceRow.id) :
    (updateConferencesStep t c).map ConferenceRow.id = t.map ConferenceRow.id := by
  have hfind : (t.find? (fun row => row.id == c.confId)).isSome = true := by
    rw [List.find?_isSome]
    rcases List.mem_map.mp hm with ⟨row, hrow, hid⟩
    exact ⟨row, hrow, by simp [hid]⟩
  simp only [updateConferencesStep, hfind, if_true, List.map_map]
  apply List.map_congr_left
  intro row _
  by_cases h : row.id = c.confId <;> simp [h, Function.comp]

theorem updateConferencesStep_ids_notmem (t : List ConferenceRow) (c : ConferenceIn)
    (hm : c.confId ∉ t.map ConferenceRow.id) :
    (updateConferencesStep t c).map ConferenceRow.id = t.map ConferenceRow.id ++ [c.confId] := by
  have hfind : t.find? (fun row => row.id == c.confId) = none := by
    rw [List.find?_eq_none]
    intro row hrow
    simp only [beq_iff_eq]
    exact fun h => hm (List.mem_map.mpr ⟨row, hrow, h⟩)
  simp [updateConferencesStep, hfind]

theorem updateDivisionsStep_ids_mem (t : List DivisionRow) (d : DivisionIn)
    (hm : d.divId ∈ t.map DivisionRow.id) :
    (updateDivisionsStep t d).map DivisionRow.id = t.map DivisionRow.id := by
  have hfind : (t.find? (fun row => row.id == d.divId)).isSome = true := by
    rw [List.find?_isSome]
    rcases List.mem_map.mp hm with ⟨row, hrow, hid⟩
    exact ⟨row, hrow, by simp [hid]⟩
  simp only [updateDivisionsStep, hfind, if_true, List.map_map]
  apply List.map_congr_left
  intro row _
  by_cases h : row.id = d.divId <;> simp [h, Function.comp]

theorem updateDivisionsStep_ids_notmem (t : List DivisionRow) (d : DivisionIn)
    (hm : d.divId ∉ t.map DivisionRow.id) :
    (updateDivisionsStep t d).map DivisionRow.id = t.map DivisionRow.id ++ [d.divId] := by
  have hfind : t.find? (fun row => row.id == d.divId) = none := by
    rw [List.find?_eq_none]
    intro row hrow
    simp only [beq_iff_eq]
    exact fun h => hm (List.mem_map.mpr ⟨row, hrow, h⟩)
  simp [updateDivisionsStep, hfind]

theorem updateSeasonsStep_ids_mem (cur : Option Int) (t : List SeasonRow) (s : SeasonIn)
    (hm : s.seasonId ∈ t.map SeasonRow.id) :
    (updateSeasonsStep cur t s).map SeasonRow.id = t.map SeasonRow.id := by
  have hfind : (t.find? (fun row => row.id == s.seasonId)).isSome = true := by
    rw [List.find?_isSome]
    rcases List.mem_map.mp hm with ⟨row, hrow, hid⟩
    exact ⟨row, hrow, by simp [hid]⟩
  simp only [updateSeasonsStep, hfind, if_true, List.map_map]
  apply List.map_congr_left
  intro row _
  by_cases h : row.id = s.seasonId <;> simp [h, Function.comp]

theorem updateSeasonsStep_ids_notmem (cur : Option Int) (t : List SeasonRow) (s : SeasonIn)
    (hm : s.seasonId ∉ t.map SeasonRow.id) :
    (updateSeasonsStep cur t s).map SeasonRow.id = t.map SeasonRow.id ++ [s.seasonId] := by
  have hfind : t.find? (fun row => row.id == s.seasonId) = none := by
    rw [List.find?_eq_none]
    intro row hrow
    simp only [beq_iff_eq]
    exact fun h => hm (List.mem_map.mpr ⟨row, hrow, h⟩)
  simp [updateSeasonsStep, hfind]

/-- In a table whose ids are distinct, updating the row with id `i` to the
given column values leaves exactly one row with id `i`, holding them. -/
theorem leagues_filter_update (i : Int) (nm sn cd lg : String) :
    ∀ t : List LeagueRow, i ∈ t.map LeagueRow.id → (t.map LeagueRow.id).Nodup →
      (t.map (fun row =>
        if row.id == i then
          { id := row.id, name := nm, short_name := sn, code := cd, logo := lg }
        else row)).filter (fun row => row.id == i)
      = [{ id := i, name := nm, short_name := sn, code := cd, logo := lg }] := by
  intro t
  induction t with
  | nil => intro h; simp at h
  | cons r rest ih =>
    intro hmem hnd
    simp only [List.map_cons, List.nodup_cons] at hnd
    obtain ⟨hnotin, hnd'⟩ := hnd
    rw [List.map_cons, List.filter_cons]
    by_cases h : r.id = i
    · have hrest : ∀ x ∈ rest.map (fun row =>
          if row.id == i then
            ({ id := row.id, name := nm, short_name := sn, code := cd,
               logo := lg } : LeagueRow)
          else row), ¬((fun row => row.id == i) x = true) := by
        intro x hx
        rcases List.mem_map.mp hx with ⟨row, hrow, rfl⟩
        have hne : row.id ≠ i := fun hh => (h ▸ hnotin) (List.mem_map.mpr ⟨row, hrow, hh⟩)
        simp [hne]
      rw [List.filter_eq_nil_iff.mpr hrest]
      simp [h]
    · have hmem' : i ∈ rest.map LeagueRow.id := by
        rcases List.mem_cons.mp hmem with hh | hh
        · exact absurd hh.symm h
        · exact hh
      have hcond : ((if r.id == i then
            ({ id := r.id, name := nm, short_name := sn, code := cd,
               logo := lg } : LeagueRow)
          else r).id == i) = false := by
        simp [h]
      rw [hcond]
      simp only [Bool.false_eq_true, if_false]
      exact ih hmem' hnd'

/-! ## Claim theorems -/

/-- C1: For a league record whose id already exists in a `leagues` table
with distinct ids, `update_leagues` updates in place: the table's id column
is unchanged (so no INSERT happened) and the one row with that id now holds
the record's values.  In particular, inserting
`{id:1, name:"PWHL", code:"pwhl"}` and then feeding
`{id:1, name:"PWHL Updated", code:"pwhl-new"}` leaves exactly the single
row `(1, "PWHL Updated", "", "pwhl-new", "")`. -/
theorem update_leagues_upsert_existing (t : List LeagueRow) (l : LeagueIn)
    (hnz : l.leagueId ≠ 0) (hmem : l.leagueId ∈ t.map LeagueRow.id)
    (hnd : (t.map LeagueRow.id).Nodup) :
    ((update_leagues t [l]).1).map LeagueRow.id = t.map LeagueRow.id ∧
    ((update_leagues t [l]).1).filter (fun row => row.id == l.leagueId) =
      [{ id := l.leagueId, name := l.name.getD "", short_name := l.short_name.getD "",
         code := l.code.getD "", logo := l.logo_image.getD "" }] ∧
    (update_leagues
      (update_leagues [] [{ id := some 1, name := some "PWHL", short_name := none,
                            code := some "pwhl", logo_image := none }]).1
      [{ id := some 1, name := some "PWHL Updated", short_name := none,
         code := some "pwhl-new", logo_image := none }]).1
      = [{ id := 1, name := "PWHL Updated", short_name := "", code := "pwhl-new",
           logo := "" }] := by
  have htab : (update_leagues t [l]).1 = updateLeaguesStep t l := by
    simp [update_leagues, runUpsert, hnz]
  have hfind : (t.find? (fun row => row.id == l.leagueId)).isSome = true := by
    rw [List.find?_isSome]
    rcases List.mem_map.mp hmem with ⟨row, hrow, hid⟩
    exact ⟨row, hrow, by simp [hid]⟩
  refine ⟨?_, ?_, by decide⟩
  · rw [htab]; exact updateLeaguesStep_ids_mem t l hmem
  · rw [htab]
    simp only [updateLeaguesStep, hfind, if_true]
    exact leagues_filter_update l.leagueId _ _ _ _ t hmem hnd

/-- Witness for C1 at a concrete table and record. -/
theorem update_leagues_upsert_existing_witness :
    ((update_leagues [{ id := 1, name := "PWHL", short_name := "", code := "pwhl",
                        logo := "" }]
        [{ id := some 1, name := some "PWHL Updated", short_name := none,
           code := some "pwhl-new", logo_image := none }]).1).map LeagueRow.id = [1] ∧
    ((update_leagues [{ id := 1, name := "PWHL", short_name := "", code := "pwhl",
                        logo := "" }]
        [{ id := some 1, name := some "PWHL Updated", short_name := none,
           code := some "pwhl-new", logo_image := none }]).1).filter
        (fun row => row.id == (1 : Int)) =
      [{ id := 1, name := "PWHL Updated", short_name := "", code := "pwhl-new",
         logo := "" }] ∧
    (update_leagues
      (update_leagues [] [{ id := some 1, name := some "PWHL", short_name := none,
                            code := some "pwhl", logo_image := none }]).1
      [{ id := some 1, name := some "PWHL Updated", short_name := none,
         code := some "pwhl-new", logo_image := none }]).1
      = [{ id := 1, name := "PWHL Updated", short_name := "", code := "pwhl-new",
           logo := "" }] :=
  update_leagues_upsert_existing
    [{ id := 1, name := "PWHL", short_name := "", code := "pwhl", logo := "" }]
    { id := some 1, name := some "PWHL Updated", short_name := none,
      code := some "pwhl-new", logo_image := none }
    (by decide) (by decide) (by decide)

/-- C6: running each basic-info updater a second time with the same input
leaves the table's id column — hence its row count — unchanged: every
second-run record takes the UPDATE branch, so no duplicate rows appear. -/
theorem basic_info_second_run_row_count_unchanged :
    (∀ (t : List LeagueRow) (d : List LeagueIn),
        ((update_leagues (update_leagues t d).1 d).1).length
          = ((update_leagues t d).1).length) ∧
    (∀ (t : List ConferenceRow) (d : List ConferenceIn),
        ((update_conferences (update_conferences t d).1 d).1).length
          = ((update_conferences t d).1).length) ∧
    (∀ (t : List DivisionRow) (d : List DivisionIn),
        ((update_divisions (update_divisions t d).1 d).1).length
          = ((update_divisions t d).1).length) ∧
    (∀ (t : List SeasonRow) (d : List SeasonIn),
        ((update_seasons (update_seasons t d).1 d).1).length
          = ((update_seasons t d).1).length) := by
  refine ⟨?_, ?_, ?_, ?_⟩
  · intro t d
    have h := runUpsert_idem_ids LeagueIn.leagueId updateLeaguesStep LeagueRow.id
      (fun t a hm => updateLeaguesStep_ids_mem t a hm)
      (fun t a hm => updateLeaguesStep_ids_notmem t a hm) t d
    have := congrArg List.length h
    simpa [List.length_map] using this
  · intro t d
    have h := runUpsert_idem_ids ConferenceIn.confId updateConferencesStep ConferenceRow.id
      (fun t a hm => updateConferencesStep_ids_mem t a hm)
      (fun t a hm => updateConferencesStep_ids_notmem t a hm) t d
    have := congrArg List.length h
    simpa [List.length_map] using this
  · intro t d
    have h := runUpsert_idem_ids DivisionIn.divId updateDivisionsStep DivisionRow.id
      (fun t a hm => updateDivisionsStep_ids_mem t a hm)
      (fun t a hm => updateDivisionsStep_ids_notmem t a hm) t d
    have := congrArg List.length h
    simpa [List.length_map] using this
  · intro t d
    have h := runUpsert_idem_ids SeasonIn.seasonId
      (updateSeasonsStep (currentSeasonId d)) SeasonRow.id
      (fun t a hm => updateSeasonsStep_ids_mem (currentSeasonId d) t a hm)
      (fun t a hm => updateSeasonsStep_ids_notmem (currentSeasonId d) t a hm) t d
    have := congrArg List.length h
    simpa [List.length_map] using this

/-- C9: `update_leagues` skips every entry whose id is missing or coerces
to 0 — the final table is the one obtained from the nonzero-id entries
alone, and the returned total counts exactly the nonzero-id entries. -/
theorem update_leagues_skips_zero_id_entries (t : List LeagueRow) (data : List LeagueIn) :
    (update_leagues t data).2
        = (data.filter (fun l => !(l.leagueId == 0))).length ∧
      (update_leagues t data).1
        = (update_leagues t (data.filter (fun l => !(l.leagueId == 0)))).1 :=
  ⟨runUpsert_count LeagueIn.leagueId updateLeaguesStep data t,
   runUpsert_table_filter LeagueIn.leagueId updateLeaguesStep data t⟩

/-- C3: in the dispatcher's actual scope the handler-call argument
`home_team_id` is an unbound name, so for every recognized event tag the
per-event body raises `NameError` before any handler body runs — whatever
the handlers would do — and the caught event contributes nothing. -/
theorem dispatcher_raises_name_error (handlers : String → PbpEvent → Except PyErr Bool)
    (ev : PbpEvent) (tag : String) (hev : ev.event = some tag)
    (htag : tag ∈ knownEventTypes) :
    processEventBody handlers dispatcherScope ev
        = Except.error (PyErr.nameError "home_team_id") ∧
      processEventCaught handlers dispatcherScope ev = 0 := by
  obtain ⟨evf⟩ := ev
  simp only at hev
  subst hev
  simp only [knownEventTypes, List.mem_cons, List.not_mem_nil, or_false] at htag
  rcases htag with rfl | rfl | rfl | rfl | rfl | rfl | rfl | rfl <;> exact ⟨rfl, rfl⟩

/-- Witness for C3 at a concrete `goal` event and concrete handlers. -/
theorem dispatcher_raises_name_error_witness :
    processEventBody (fun _ _ => Except.ok true) dispatcherScope ⟨some "goal"⟩
        = Except.error (PyErr.nameError "home_team_id") ∧
      processEventCaught (fun _ _ => Except.ok true) dispatcherScope ⟨some "goal"⟩ = 0 :=
  dispatcher_raises_name_error (fun _ _ => Except.ok true) ⟨some "goal"⟩ "goal"
    rfl (by decide)

theorem processEvents_go (handlers : String → PbpEvent → Except PyErr Bool)
    (scope : List String) :
    ∀ (es : List PbpEvent) (n : Nat),
      es.foldl (fun acc ev => acc + processEventCaught handlers scope ev) n
        = n + processEvents handlers scope es := by
  intro es
  induction es with
  | nil => intro n; simp [processEvents]
  | cons e rest ih =>
    intro n
    simp only [List.foldl_cons, processEvents]
    rw [ih, ih (0 + processEventCaught handlers scope e)]
    omega

/-- C4: the loop of `process_game_play_by_play` never aborts on a bad
event — the total over a concatenation is the sum of the totals, each
event's contribution flowing through its own `try`/`except` — and an event
whose tag matches none of the eight known kinds yields `0` from the body
without raising, i.e. is silently ignored and not counted. -/
theorem per_event_failures_isolated :
    (∀ (handlers : String → PbpEvent → Except PyErr Bool) (scope : List String)
        (es₁ es₂ : List PbpEvent),
        processEvents handlers scope (es₁ ++ es₂)
          = processEvents handlers scope es₁ + processEvents handlers scope es₂) ∧
    (∀ (handlers : String → PbpEvent → Except PyErr Bool) (scope : List String)
        (ev : PbpEvent), (∀ tag, ev.event = some tag → tag ∉ knownEventTypes) →
        processEventBody handlers scope ev = Except.ok 0) := by
  constructor
  · intro handlers scope es₁ es₂
    show List.foldl _ 0 (es₁ ++ es₂) = _
    rw [List.foldl_append]
    have h0 : List.foldl (fun acc ev => acc + processEventCaught handlers scope ev) 0 es₁
        = processEvents handlers scope es₁ := rfl
    rw [h0, processEvents_go handlers scope es₂]
  · intro handlers scope ev hun
    match hev : ev.event with
    | Option.none => simp [processEventBody, hev]
    | some tag =>
      have := hun tag hev
      simp [processEventBody, hev, this]

/-- Witness for C4: a handler that always raises and an unrecognized tag,
at concrete inputs. -/
theorem per_event_failures_isolated_witness :
    processEvents (fun _ _ => Except.error (PyErr.exc "boom")) dispatcherScope
        ([⟨some "goal"⟩] ++ [⟨some "weird"⟩])
      = processEvents (fun _ _ => Except.error (PyErr.exc "boom")) dispatcherScope
          [⟨some "goal"⟩]
        + processEvents (fun _ _ => Except.error (PyErr.exc "boom")) dispatcherScope
            [⟨some "weird"⟩] ∧
    processEventBody (fun _ _ => Except.error (PyErr.exc "boom")) dispatcherScope
        ⟨some "weird"⟩
      = Except.ok 0 :=
  ⟨per_event_failures_isolated.1 _ _ _ _,
   per_event_failures_isolated.2 _ _ _ (by intro tag h; cases h; decide)⟩

/-- C7: `execute_query` and `execute_many` either commit and return the
driver's affected-row count, or, when the driver raises a `sqlite3.Error`,
roll the transaction back and re-raise that same error to the caller — a
database error is never swallowed. -/
theorem execute_helpers_commit_or_reraise {σ : Type}
    (driver : Driver σ) (driverMany : DriverMany σ) (conn : DbConn σ)
    (query : String) (params : Option (List PyVal)) (params_list : List (List PyVal)) :
    (∀ c n, driver conn query (execParamArg params) = (c, Except.ok n) →
        execute_query driver conn query params = (c.commit, Except.ok n)) ∧
    (∀ c e, driver conn query (execParamArg params) = (c, Except.error e) →
        execute_query driver conn query params = (c.rollback, Except.error e)) ∧
    (∀ c n, driverMany conn query params_list = (c, Except.ok n) →
        execute_many driverMany conn query params_list = (c.commit, Except.ok n)) ∧
    (∀ c e, driverMany conn query params_list = (c, Except.error e) →
        execute_many driverMany conn query params_list = (c.rollback, Except.error e)) := by
  refine ⟨?_, ?_, ?_, ?_⟩ <;> intro c x h <;> simp [execute_query, execute_many, h]

/-- Witness for C7: a failing driver is rolled back and its error
re-raised; a succeeding `executemany` driver is committed. -/
theorem execute_helpers_commit_or_reraise_witness :
    execute_query (σ := Int)
        (fun _ _ _ => (⟨5, 0⟩, Except.error (SqliteError.sqlError "locked")))
        ⟨0, 0⟩ "UPDATE leagues SET name = ?" (some [PyVal.vStr "PWHL"])
      = (⟨0, 0⟩, Except.error (SqliteError.sqlError "locked")) ∧
    execute_many (σ := Int) (fun _ _ _ => (⟨7, 0⟩, Except.ok 3))
        ⟨0, 0⟩ "INSERT INTO leagues VALUES (?)" [[PyVal.vInt 1]]
      = (⟨7, 7⟩, Except.ok 3) :=
  ⟨(execute_helpers_commit_or_reraise
      (σ := Int) (fun _ _ _ => (⟨5, 0⟩, Except.error (SqliteError.sqlError "locked")))
      (fun _ _ _ => (⟨7, 0⟩, Except.ok 3)) ⟨0, 0⟩ "UPDATE leagues SET name = ?"
      (some [PyVal.vStr "PWHL"]) [[PyVal.vInt 1]]).2.1 _ _ rfl,
   (execute_helpers_commit_or_reraise
      (σ := Int) (fun _ _ _ => (⟨5, 0⟩, Except.error (SqliteError.sqlError "locked")))
      (fun _ _ _ => (⟨7, 0⟩, Except.ok 3)) ⟨0, 0⟩ "UPDATE leagues SET name = ?"
      (some [PyVal.vStr "PWHL"]) [[PyVal.vInt 1]]).2.2.1 _ _ rfl⟩

theorem mem_insertByGameId (g x : GameRow) :
    ∀ l, x ∈ insertByGameId g l ↔ x = g ∨ x ∈ l := by
  intro l
  induction l with
  | nil => simp [insertByGameId]
  | cons h t ih =>
    by_cases hle : g.id ≤ h.id
    · simp [insertByGameId, hle, List.mem_cons]
    · simp only [insertByGameId, hle, if_false, List.mem_cons, ih]
      tauto

theorem mem_sortByGameId (x : GameRow) : ∀ l, x ∈ sortByGameId l ↔ x ∈ l := by
  intro l
  induction l with
  | nil => simp [sortByGameId]
  | cons h t ih => simp [sortByGameId, mem_insertByGameId, ih, List.mem_cons]

/-- C2 (amended): `get_games_without_play_by_play` returns exactly the
games that have no rows in any of the eight event tables AND whose status
is `'Final'` — a zero-event game with a different status is excluded. -/
theorem mem_games_without_play_by_play (db : PbpDB) (p : Int × Int) :
    p ∈ get_games_without_play_by_play db ↔
      ∃ g ∈ db.games, p = (g.id, g.season_id) ∧ g.status = "Final" ∧
        hasPlayByPlay db g.id = false := by
  unfold get_games_without_play_by_play
  rw [List.mem_map]
  constructor
  · rintro ⟨g, hg, rfl⟩
    rw [mem_sortByGameId, List.mem_filter] at hg
    obtain ⟨hgm, hcond⟩ := hg
    rw [Bool.and_eq_true, Bool.not_eq_true'] at hcond
    exact ⟨g, hgm, rfl, by simpa using hcond.2, hcond.1⟩
  · rintro ⟨g, hgm, rfl, hstat, hpbp⟩
    refine ⟨g, ?_, rfl⟩
    rw [mem_sortByGameId, List.mem_filter]
    exact ⟨hgm, by simp [hpbp, hstat]⟩

/-- Witness for C2 (amended) at a concrete database: a `Final` game with
no event rows is returned. -/
theorem mem_games_without_play_by_play_witness :
    (3, 2025) ∈ get_games_without_play_by_play
      { games := [{ id := 3, season_id := 2025, status := "Final" }],
        pbp_faceoffs := [], pbp_shots := [], pbp_goals := [], pbp_hits := [],
        pbp_penalties := [], pbp_blocked_shots := [], pbp_goalie_changes := [],
        pbp_shootouts := [] } :=
  (mem_games_without_play_by_play
    { games := [{ id := 3, season_id := 2025, status := "Final" }],
      pbp_faceoffs := [], pbp_shots := [], pbp_goals := [], pbp_hits := [],
      pbp_penalties := [], pbp_blocked_shots := [], pbp_goalie_changes := [],
      pbp_shootouts := [] } (3, 2025)).mpr
    ⟨{ id := 3, season_id := 2025, status := "Final" }, by decide, rfl, rfl, by decide⟩

/-- C2 as stated is false: in `nonFinalGameDb` game 2 has zero rows in all
eight event tables, yet it is not in the result — its status is
`'Scheduled'`, and the query also filters on `g.status = 'Final'`. -/
theorem games_without_play_by_play_misses_zero_event_game :
    ({ id := 2, season_id := 2024, status := "Scheduled" } : GameRow)
        ∈ nonFinalGameDb.games ∧
      hasPlayByPlay nonFinalGameDb 2 = false ∧
      (2, 2024) ∉ get_games_without_play_by_play nonFinalGameDb := by
  decide

theorem pyDictGet_cons (x : String × PyVal) (xs : List (String × PyVal)) (c : String) :
    pyDictGet (x :: xs) c = if x.1 == c then x.2 else pyDictGet xs c := by
  by_cases h : (x.1 == c) = true <;> simp [pyDictGet, List.find?_cons, h]

/-- A preserve-listed column whose extracted value is falsy never appears
among the computed changes. -/
theorem computeChanges_skips_empty_preserve (cols : List String)
    (fields existing : List (String × PyVal)) (c : String)
    (hp : preserve_fields.contains c = true)
    (hempty : (pyDictGet fields c).truthy = false) :
    pyDictHas (computeChanges cols fields existing) c = false := by
  rw [pyDictHas, List.any_eq_false]
  intro q hq
  rcases List.mem_filterMap.mp hq with ⟨column, _hcol, hfq⟩
  simp only [beq_iff_eq]
  intro hqc
  split at hfq
  · split at hfq
    · split at hfq
      · cases hfq
        rename_i hcond
        rw [Bool.and_eq_true] at hcond
        simp only at hqc
        rw [hqc] at hcond
        rw [hempty] at hcond
        exact Bool.false_ne_true hcond.1
      · cases hfq
    · split at hfq
      · cases hfq
        rename_i hpres _
        simp only at hqc
        rw [hqc] at hpres
        exact hpres hp
      · cases hfq
  · cases hfq

/-- A row's value in a column untouched by the change set survives the
UPDATE. -/
theorem pyDictGet_applyChanges (changes : List (String × PyVal)) (c : String)
    (hno : pyDictHas changes c = false) :
    ∀ row, pyDictGet (applyChanges row changes) c = pyDictGet row c := by
  intro row
  induction row with
  | nil => rfl
  | cons p rest ih =>
    simp only [applyChanges] at ih ⊢
    rw [List.map_cons]
    by_cases hb : pyDictHas changes p.1 = true
    · have hpc : (p.1 == c) = false := by
        rw [beq_eq_false_iff_ne]
        intro h
        rw [h, hno] at hb
        exact Bool.false_ne_true hb
      rw [if_pos hb, pyDictGet_cons, pyDictGet_cons]
      simp only [hpc]
      exact ih
    · rw [if_neg hb, pyDictGet_cons, pyDictGet_cons]
      by_cases hpc : (p.1 == c) = true
      · simp [hpc]
      · simp only [hpc, Bool.false_eq_true, if_false]
        exact ih

/-- C5: for a player already stored, when the extracted API value of a
preserve-listed field (`hometown`, `hometown_div`, `nationality`,
`weight_kg`, `height_cm`) is empty or null, `update_player` leaves that
column of every stored row — in particular the previously stored non-empty
value — intact. -/
theorem update_player_preserves_fields (db : PlayersTable)
    (fields : List (String × PyVal)) (c : String)
    (hp : preserve_fields.contains c = true)
    (hempty : (pyDictGet fields c).truthy = false)
    (hex : (db.rows.find? (fun r => pyDictGet r "id" == pyDictGet fields "id")).isSome
      = true) :
    ((update_player db fields).1).rows.map (fun r => pyDictGet r c)
      = db.rows.map (fun r => pyDictGet r c) := by
  obtain ⟨ex, hfind⟩ := Option.isSome_iff_exists.mp hex
  simp only [update_player, hfind]
  by_cases hch : (computeChanges db.cols fields ex).isEmpty = true
  · rw [if_pos hch]
  · rw [if_neg hch]
    simp only [List.map_map]
    apply List.map_congr_left
    intro r _
    simp only [Function.comp]
    by_cases hr : (pyDictGet r "id" == pyDictGet fields "id") = true
    · rw [if_pos hr]
      exact pyDictGet_applyChanges (computeChanges db.cols fields ex) c
        (computeChanges_skips_empty_preserve db.cols fields ex c hp hempty) r
    · rw [if_neg hr]

/-- Witness for C5: an empty `hometown` from the API does not clobber the
stored `"Montreal"`. -/
theorem update_player_preserves_fields_witness :
    ((update_player
        { cols := ["id", "hometown"],
          rows := [[("id", PyVal.vInt 5), ("hometown", PyVal.vStr "Montreal")]] }
        [("id", PyVal.vInt 5), ("hometown", PyVal.vStr "")]).1).rows.map
      (fun r => pyDictGet r "hometown")
      = [PyVal.vStr "Montreal"] :=
  update_player_preserves_fields
    { cols := ["id", "hometown"],
      rows := [[("id", PyVal.vInt 5), ("hometown", PyVal.vStr "Montreal")]] }
    [("id", PyVal.vInt 5), ("hometown", PyVal.vStr "")] "hometown"
    (by decide) (by decide) (by decide)

/-- C10: when every extracted field of an already-stored player either
equals the stored value or is an empty value of a preserve-listed field,
`update_player` performs neither INSERT nor UPDATE — the table is returned
unchanged with result `False`; and in general the result is `False`
exactly when a stored row was found and the change diff was empty (i.e.
`True` exactly when a row was inserted or at least one column updated). -/
theorem update_player_no_change_noop (db : PlayersTable)
    (fields ex : List (String × PyVal))
    (hfind : db.rows.find? (fun r => pyDictGet r "id" == pyDictGet fields "id")
      = some ex)
    (hsame : ∀ c ∈ db.cols, pyDictHas fields c = true →
        pyDictGet fields c = pyDictGet ex c ∨
          (preserve_fields.contains c = true ∧ (pyDictGet fields c).truthy = false)) :
    update_player db fields = (db, false) ∧
    (∀ (db' : PlayersTable) (fields' : List (String × PyVal)),
        (update_player db' fields').2 = false ↔
          ∃ ex', db'.rows.find? (fun r => pyDictGet r "id" == pyDictGet fields' "id")
              = some ex' ∧
            computeChanges db'.cols fields' ex' = []) := by
  constructor
  · have hchanges : computeChanges db.cols fields ex = [] := by
      rw [computeChanges, List.filterMap_eq_nil_iff]
      intro c hc
      by_cases hhas : pyDictHas fields c = true
      · rw [if_pos hhas]
        rcases hsame c hc hhas with heq | ⟨hpres, hfalsy⟩
        · by_cases hpres : preserve_fields.contains c = true
          · rw [if_pos hpres]
            have : (pyDictGet fields c == pyDictGet ex c) = true := by simp [heq]
            simp [this]
          · rw [if_neg hpres]
            have : (pyDictGet fields c == pyDictGet ex c) = true := by simp [heq]
            simp [this]
        · rw [if_pos hpres, hfalsy]
          simp
      · rw [if_neg hhas]
    simp only [update_player, hfind, hchanges]
    rfl
  · intro db' fields'
    simp only [update_player]
    match hf : db'.rows.find? (fun r => pyDictGet r "id" == pyDictGet fields' "id") with
    | Option.none =>
      simp only []
      constructor
      · intro h; exact absurd h (by simp)
      · rintro ⟨ex', hex', _⟩; cases hex'
    | some ex' =>
      simp only []
      by_cases hch : (computeChanges db'.cols fields' ex').isEmpty = true
      · rw [if_pos hch]
        simp only [List.isEmpty_iff] at hch
        exact ⟨fun _ => ⟨ex', rfl, hch⟩, fun _ => rfl⟩
      · rw [if_neg hch]
        constructor
        · intro h; exact absurd h (by simp)
        · rintro ⟨ex'', hex'', hnil⟩
          cases hex''
          rw [List.isEmpty_iff] at hch
          exact absurd hnil hch

/-- Witness for C10: identical non-preserve values and an empty preserve
value produce no write and result `False`. -/
theorem update_player_no_change_noop_witness :
    update_player
        { cols := ["id", "first_name", "hometown"],
          rows := [[("id", PyVal.vInt 5), ("first_name", PyVal.vStr "Marie"),
                    ("hometown", PyVal.vStr "Montreal")]] }
        [("id", PyVal.vInt 5), ("first_name", PyVal.vStr "Marie"),
         ("hometown", PyVal.vStr "")]
      = ({ cols := ["id", "first_name", "hometown"],
           rows := [[("id", PyVal.vInt 5), ("first_name", PyVal.vStr "Marie"),
                     ("hometown", PyVal.vStr "Montreal")]] }, false) :=
  (update_player_no_change_noop
    { cols := ["id", "first_name", "hometown"],
      rows := [[("id", PyVal.vInt 5), ("first_name", PyVal.vStr "Marie"),
                ("hometown", PyVal.vStr "Montreal")]] }
    [("id", PyVal.vInt 5), ("first_name", PyVal.vStr "Marie"),
     ("hometown", PyVal.vStr "")]
    [("id", PyVal.vInt 5), ("first_name", PyVal.vStr "Marie"),
     ("hometown", PyVal.vStr "Montreal")]
    (by decide) (by decide)).1

theorem foldl_max_mem (l : List Int) : ∀ x : Int, l.foldl max x ∈ x :: l := by
  induction l with
  | nil => intro x; simp
  | cons y ys ih =>
    intro x
    have h := ih (max x y)
    rcases max_choice x y with h1 | h1 <;> rw [List.foldl_cons] <;>
      rcases List.mem_cons.mp h with h2 | h2 <;> simp [h1] at h2 ⊢ <;> simp [h2]

/-- A nonzero designated current-season id is the coerced id of some
payload entry. -/
theorem currentSeasonId_mem (d : List SeasonIn) (c : Int)
    (hc : currentSeasonId d = some c) (hcnz : c ≠ 0) :
    ∃ s ∈ d, s.seasonId = c := by
  unfold currentSeasonId at hc
  match hfind : d.find? SeasonIn.isCurrentFlag with
  | some s =>
    rw [hfind] at hc
    cases hc
    exact ⟨s, List.mem_of_find?_eq_some hfind, rfl⟩
  | Option.none =>
    rw [hfind] at hc
    by_cases hne : d.isEmpty = true
    · rw [if_pos hne] at hc; cases hc
    · rw [if_neg hne] at hc
      cases hc
      have hdne : d ≠ [] := fun h => hne (by rw [h]; rfl)
      have hmax : pyListMax (d.map SeasonIn.seasonId) ∈ d.map SeasonIn.seasonId := by
        match hd : d.map SeasonIn.seasonId with
        | [] => exact absurd (List.map_eq_nil_iff.mp hd) hdne
        | x :: xs => exact foldl_max_mem xs x
      rcases List.mem_map.mp hmax with ⟨s, hs, hsid⟩
      exact ⟨s, hs, hsid⟩

/-- What `update_seasons` does to each row of the result: a row whose id
was processed carries exactly the `current` flag of the id comparison; any
other row was already stored and is untouched. -/
theorem seasons_run_characterize (cur : Option Int) :
    ∀ (d : List SeasonIn) (t : List SeasonRow) (row : SeasonRow),
      row ∈ (runUpsert SeasonIn.seasonId (updateSeasonsStep cur) t d).1 →
        (row.id ∈ processedSeasonIds d ∧
            row.current = (if some row.id = cur then 1 else 0)) ∨
          (row ∈ t ∧ row.id ∉ processedSeasonIds d) := by
  intro d
  induction d with
  | nil =>
    intro t row h
    right
    exact ⟨h, by simp [processedSeasonIds]⟩
  | cons s rest ih =>
    intro t row h
    by_cases h0 : s.seasonId = 0
    · simp only [runUpsert, if_pos h0] at h
      have hpids : processedSeasonIds (s :: rest) = processedSeasonIds rest := by
        simp [processedSeasonIds, List.filter_cons, h0]
      rw [hpids]
      exact ih t row h
    · simp only [runUpsert, if_neg h0] at h
      have hpids : processedSeasonIds (s :: rest)
          = s.seasonId :: processedSeasonIds rest := by
        simp [processedSeasonIds, List.filter_cons, h0]
      rcases ih (updateSeasonsStep cur t s) row h with ⟨hin, hcur⟩ | ⟨hmem, hnotin⟩
      · left
        exact ⟨by rw [hpids]; exact List.mem_cons_of_mem _ hin, hcur⟩
      · by_cases hfind : (t.find? (fun r => r.id == s.seasonId)).isSome = true
        · simp only [updateSeasonsStep, hfind, if_true] at hmem
          rcases List.mem_map.mp hmem with ⟨x, hx, hgx⟩
          by_cases hxid : (x.id == s.seasonId) = true
          · rw [if_pos hxid] at hgx
            subst hgx
            rw [beq_iff_eq] at hxid
            left
            constructor
            · rw [hpids]
              show x.id ∈ s.seasonId :: processedSeasonIds rest
              rw [hxid]
              exact List.mem_cons_self _ _
            · show (if some s.seasonId = cur then (1 : Int) else 0)
                = if some x.id = cur then 1 else 0
              rw [hxid]
          · rw [if_neg hxid] at hgx
            subst hgx
            right
            refine ⟨hx, ?_⟩
            rw [hpids]
            intro hcon
            rcases List.mem_cons.mp hcon with heq | hmem2
            · exact hxid (by simp [heq])
            · exact hnotin hmem2
        · have hfindn : t.find? (fun r => r.id == s.seasonId) = none :=
            Option.not_isSome_iff_eq_none.mp (by simpa using hfind)
          simp only [updateSeasonsStep, hfindn, Option.isSome_none,
            Bool.false_eq_true, if_false] at hmem
          rcases List.mem_append.mp hmem with hmem1 | hmem2
          · right
            refine ⟨hmem1, ?_⟩
            rw [hpids]
            intro hcon
            rcases List.mem_cons.mp hcon with heq | hmem3
            · exact (List.find?_eq_none.mp hfindn row hmem1) (by simp [heq])
            · exact hnotin hmem3
          · left
            rw [List.mem_singleton] at hmem2
            subst hmem2
            exact ⟨by rw [hpids]; exact List.mem_cons_self _ _, rfl⟩

/-- C8 fails as stated: with a prior state holding a stale current season
(id 99) not present in the payload, `update_seasons` on a non-empty
payload leaves TWO rows flagged `current = 1`, not exactly one. -/
theorem update_seasons_two_current_rows :
    newSeasonPayload ≠ [] ∧
      (((update_seasons staleCurrentSeasons newSeasonPayload).1).filter
        (fun row => row.current == 1)).length = 2 := by
  decide

/-- C8 (amended): if every previously stored row flagged current has its id
among the payload's processed (nonzero) ids — in particular from an empty
table — and the designated current-season id is a nonzero id, then after
`update_seasons` exactly one row of the table has `current = 1`. -/
theorem update_seasons_unique_current (t : List SeasonRow) (d : List SeasonIn) (c : Int)
    (hnd : (t.map SeasonRow.id).Nodup)
    (hprior : ∀ row ∈ t, row.current = 1 → row.id ∈ processedSeasonIds d)
    (hc : currentSeasonId d = some c) (hcnz : c ≠ 0) :
    (((update_seasons t d).1).filter (fun row => row.current == 1)).length = 1 := by
  obtain ⟨s, hs, hsid⟩ := currentSeasonId_mem d c hc hcnz
  have hcpids : c ∈ processedSeasonIds d := by
    rw [processedSeasonIds]
    rw [List.mem_filter]
    exact ⟨List.mem_map.mpr ⟨s, hs, hsid⟩, by simp [hcnz]⟩
  have hnodup : (((update_seasons t d).1).map SeasonRow.id).Nodup :=
    runUpsert_nodup SeasonIn.seasonId (updateSeasonsStep (currentSeasonId d))
      SeasonRow.id
      (fun t a hm => updateSeasonsStep_ids_mem (currentSeasonId d) t a hm)
      (fun t a hm => updateSeasonsStep_ids_notmem (currentSeasonId d) t a hm)
      d t hnd
  have hcmem : c ∈ ((update_seasons t d).1).map SeasonRow.id := by
    have hx := runUpsert_key_mem SeasonIn.seasonId (updateSeasonsStep (currentSeasonId d))
      SeasonRow.id
      (fun t a hm => updateSeasonsStep_ids_mem (currentSeasonId d) t a hm)
      (fun t a hm => updateSeasonsStep_ids_notmem (currentSeasonId d) t a hm)
      d t s hs (hsid ▸ hcnz)
    rwa [hsid] at hx
  have hfilter : ((update_seasons t d).1).filter (fun row => row.current == 1)
      = ((update_seasons t d).1).filter (fun row => row.id == c) := by
    apply List.filter_congr
    intro row hrow
    rcases seasons_run_characterize (currentSeasonId d) d t row hrow with
      ⟨_hin, hcur⟩ | ⟨hmem, hnotin⟩
    · rw [hc] at hcur
      by_cases hid : row.id = c
      · rw [hcur]; simp [hid]
      · rw [hcur]; simp [hid]
    · have hcne : row.current ≠ 1 := fun hh => hnotin (hprior row hmem hh)
      have hidne : row.id ≠ c := fun hh => hnotin (hh ▸ hcpids)
      simp [hcne, hidne]
  rw [hfilter]
  have h1 : List.count c (((update_seasons t d).1).map SeasonRow.id) = 1 :=
    List.count_eq_one_of_mem hnodup hcmem
  calc (((update_seasons t d).1).filter (fun row => row.id == c)).length
      = List.countP (fun row => row.id == c) ((update_seasons t d).1) :=
        (List.countP_eq_length_filter _ _).symm
    _ = List.countP (fun i => i == c) (((update_seasons t d).1).map SeasonRow.id) := by
        rw [List.countP_map]; rfl
    _ = List.count c (((update_seasons t d).1).map SeasonRow.id) :=
        (List.count_eq_countP _ _).symm
    _ = 1 := h1

/-- Witness for C8 (amended): from an empty table and a one-season payload
flagged current, exactly one row ends up flagged. -/
theorem update_seasons_unique_current_witness :
    (((update_seasons [] newSeasonPayload).1).filter
      (fun row => row.current == 1)).length = 1 :=
  update_seasons_unique_current [] newSeasonPayload 1 (by decide)
    (by intro row h; exact absurd h (List.not_mem_nil row)) (by decide) (by decide)

end PWHL
